import Mathlib

/-!
Shallow embedding of the Snapshots-MCP-Server window matching and
restore engine (Go sources under internal/platform/matcher.go,
internal/snapshot/manager.go and the ManagerV2 orchestrator), together
with proofs settling the frozen claims about it.

Modelling conventions:
* Go `int`/`int64` are embedded as `Int` (no arithmetic in the claims
  approaches the 64-bit overflow boundary); counters that Go only
  increments from zero are embedded as `Nat`.
* Go `float64` arithmetic in the matcher (Jaccard similarity and the
  size-tolerance test) is embedded as exact rational arithmetic.  All
  quotients that occur have numerator and denominator far below 2^50,
  and the comparison constants 0.7 and 0.1 are not exactly
  representable in binary, so the double computation is correctly
  rounded and agrees with the rational one except on rationals within
  about 5.5e-17 of the constants, which would need denominators above
  10^15 - impossible for character-set sizes and realistic window
  geometry.  The one genuinely observable float artefact - division by
  a zero width/height producing NaN or +Inf, both of which fail
  `<= tolerance` - is modelled explicitly by a zero test.
* `strings.ToLower`, `strings.Fields`, `unicode.IsSpace` are embedded
  via `Char.toLower` / `Char.isWhitespace`; this matches Go on the
  ASCII titles all claims are about.
* Go maps are embedded as association lists with overwrite-on-insert
  and first-match lookup; list-valued results built by iterating a Go
  map (whose order is unspecified) are embedded as `Finset`s.
* Effectful collaborators (repository, platform adapter) are embedded
  as explicit inputs: fetches become `Except String` values, and the
  per-window `RestoreWindow` platform call becomes a function
  `Window -> Option String` (`none` = success).  The list of windows
  actually passed to `RestoreWindow` is returned as an explicit call
  trace so that frame-effect claims can be stated.
-/

/-- Embeds `core.Window` (internal/core/models.go). `LaunchArgs` is an
opaque blob (`json.RawMessage`), embedded as a string. -/
structure Window where
  ID : Int
  SnapshotID : String
  AppName : String
  AppPath : String
  WindowTitle : String
  X : Int
  Y : Int
  Width : Int
  Height : Int
  State : String
  Workspace : Int
  ZIndex : Int
  LaunchArgs : String
deriving DecidableEq

/-- Embeds `core.Terminal` (internal/core/models.go); env vars as an
association list. -/
structure Terminal where
  ID : Int
  SnapshotID : String
  TerminalApp : String
  WorkingDirectory : String
  ActiveCommand : String
  ShellType : String
  EnvVars : List (String × String)
deriving DecidableEq

/-- Embeds `core.BrowserTab` (internal/core/models.go). -/
structure BrowserTab where
  ID : Int
  SnapshotID : String
  BrowserName : String
  URL : String
  Title : String
  TabIndex : Int
  WindowIndex : Int
  IsPinned : Bool
deriving DecidableEq

/-- Embeds `core.Process` (internal/core/models.go). -/
structure Process where
  ID : Int
  SnapshotID : String
  ProcessName : String
  Command : String
  WorkingDirectory : String
  Pid : Int
  AutoRestart : Bool
deriving DecidableEq

/-- Embeds `core.IDEFile` (internal/core/models.go). -/
structure IDEFile where
  ID : Int
  SnapshotID : String
  IDEName : String
  FilePath : String
  CursorLine : Int
  CursorColumn : Int
  IsActive : Bool
deriving DecidableEq

/-- Embeds `core.Snapshot` (internal/core/models.go); `time.Time`
values are opaque ticks embedded as `Nat`. -/
structure Snapshot where
  ID : String
  Name : String
  Description : String
  CreatedAt : Nat
  UpdatedAt : Nat
  GitBranch : String
  GitRepo : String
  GitDirty : Bool
  GitHeadHash : String
  Tags : List String
  Windows : List Window
  Terminals : List Terminal
  BrowserTabs : List BrowserTab
  Processes : List Process
  IDEFiles : List IDEFile
deriving DecidableEq

/-- Embeds `platform.WindowMatcher` (internal/platform/matcher.go),
the scoring configuration. -/
structure WindowMatcher where
  ExactTitleScore : Int
  PartialTitleScore : Int
  SameAppScore : Int
  SameSizeScore : Int
  MinimumScore : Int
deriving DecidableEq

/-- Embeds `platform.DefaultMatcher` (matcher.go): the default scoring
configuration 100/50/50/10 with acceptance threshold 60. -/
def DefaultMatcher : WindowMatcher :=
  { ExactTitleScore := 100
    PartialTitleScore := 50
    SameAppScore := 50
    SameSizeScore := 10
    MinimumScore := 60 }

/-- Embeds `platform.MatchResult` (matcher.go). -/
structure MatchResult where
  Window : Window
  Score : Int
deriving DecidableEq

/-- Embeds `strings.ToLower` restricted to ASCII case mapping
(`Char.toLower`), which coincides with Go on all ASCII titles. -/
def lowerStr (s : String) : String :=
  String.mk (s.data.map Char.toLower)

/-- Embeds `strings.Contains s sub`: `sub` occurs contiguously in `s`
(the empty string occurs in every string, as in Go). -/
def containsSub (s sub : String) : Bool :=
  (List.range (s.data.length + 1)).any
    (fun i => decide ((s.data.drop i).take sub.data.length = sub.data))

/-- Helper for `fieldsStr`: accumulates the current token (reversed)
while scanning. -/
def fieldsAux : List Char → List Char → List String
  | [], acc => if acc = [] then [] else [String.mk acc.reverse]
  | c :: cs, acc =>
    if c.isWhitespace then
      if acc = [] then fieldsAux cs []
      else String.mk acc.reverse :: fieldsAux cs []
    else fieldsAux cs (c :: acc)

/-- Embeds `strings.Fields`: split around maximal runs of whitespace,
no empty tokens. -/
def fieldsStr (s : String) : List String :=
  fieldsAux s.data []

/-- Embeds Go's `int(x)` conversion from `float64` (truncation toward
zero) on an exact rational. -/
def intTrunc (q : ℚ) : Int :=
  if 0 ≤ q then q.floor else q.ceil

/-- Embeds `WindowMatcher.stringSimilarity` (matcher.go): Jaccard
similarity of the distinct-character sets of the two strings, with the
`s1 == s2` fast path and the zero-union guard. -/
def WindowMatcher.stringSimilarity (_ : WindowMatcher) (s1 s2 : String) : ℚ :=
  if s1 = s2 then 1
  else
    let set1 := s1.data.dedup
    let set2 := s2.data.dedup
    let inter := (set1.filter (fun c => set2.contains c)).length
    let union := set1.length + set2.length - inter
    if union = 0 then 0 else mkRat (inter : Int) union

/-- Embeds `WindowMatcher.countCommonTokens` (matcher.go): the number
of tokens of `tokens2` whose lowercase form occurs among the lowered
`tokens1` (the Go set built from `tokens1`). -/
def WindowMatcher.countCommonTokens (_ : WindowMatcher)
    (tokens1 tokens2 : List String) : Nat :=
  let set := tokens1.map lowerStr
  (tokens2.filter (fun t => set.contains (lowerStr t))).length

/-- Embeds `WindowMatcher.scoreTitleMatch` (matcher.go): exact match,
case-insensitive exact match, substring either way, character-set
Jaccard above 0.7, then token overlap; first applicable rule wins. -/
def WindowMatcher.scoreTitleMatch (m : WindowMatcher)
    (target candidate : String) : Int :=
  if target = candidate then m.ExactTitleScore
  else
    let targetLower := lowerStr target
    let candidateLower := lowerStr candidate
    if targetLower = candidateLower then m.ExactTitleScore
    else if containsSub candidateLower targetLower then m.PartialTitleScore
    else if containsSub targetLower candidateLower then m.PartialTitleScore
    else
      let similarity := m.stringSimilarity targetLower candidateLower
      if mkRat 7 10 < similarity then intTrunc ((m.PartialTitleScore : ℚ) * similarity)
      else
        let targetTokens := fieldsStr target
        let candidateTokens := fieldsStr candidate
        let commonTokens := m.countCommonTokens targetTokens candidateTokens
        if 0 < commonTokens then
          Int.tdiv ((commonTokens : Int) * m.PartialTitleScore) (targetTokens.length : Int)
        else 0

/-- Embeds `WindowMatcher.isSimilarSize` (matcher.go): both width and
height of the candidate within 10 percent of the target's own width
and height.  Go divides by `float64(w1.Width)`; when that is zero the
quotient is NaN or +Inf and the `<= tolerance` test fails, which the
explicit zero tests model. -/
def WindowMatcher.isSimilarSize (_ : WindowMatcher) (w1 w2 : Window) : Bool :=
  decide (w1.Width ≠ 0 ∧
    Rat.divInt ((w1.Width - w2.Width).natAbs : Int) w1.Width ≤ mkRat 1 10) &&
  decide (w1.Height ≠ 0 ∧
    Rat.divInt ((w1.Height - w2.Height).natAbs : Int) w1.Height ≤ mkRat 1 10)

/-- Embeds `WindowMatcher.calculateScore` (matcher.go): additive title
signal, application-identity signal, size signal. -/
def WindowMatcher.calculateScore (m : WindowMatcher)
    (target candidate : Window) : Int :=
  let score : Int := 0
  let score := score + m.scoreTitleMatch target.WindowTitle candidate.WindowTitle
  let score := score + (if target.AppName = candidate.AppName then m.SameAppScore else 0)
  let score := score + (if m.isSimilarSize target candidate then m.SameSizeScore else 0)
  score

/-- Embeds one iteration of the `FindBestMatch` loop (matcher.go): the
running `bestMatch` pointer is replaced only when the candidate
reaches `MinimumScore` and strictly beats the current best. -/
def WindowMatcher.stepFBM (m : WindowMatcher) (target : Window)
    (best : Option MatchResult) (c : Window) : Option MatchResult :=
  if m.MinimumScore ≤ m.calculateScore target c then
    match best with
    | none => some ⟨c, m.calculateScore target c⟩
    | some b =>
      if b.Score < m.calculateScore target c then
        some ⟨c, m.calculateScore target c⟩
      else some b
  else best

/-- Embeds the loop of `WindowMatcher.FindBestMatch` (matcher.go) over
the candidate list. -/
def WindowMatcher.goFBM (m : WindowMatcher) (target : Window) :
    Option MatchResult → List Window → Option MatchResult
  | best, [] => best
  | best, c :: cs => m.goFBM target (m.stepFBM target best c) cs

/-- Embeds `WindowMatcher.FindBestMatch` (matcher.go): scan all
candidates starting from no best match.  The Go function has no error
return; absence of a match is the `none`/nil result. -/
def WindowMatcher.FindBestMatch (m : WindowMatcher) (target : Window)
    (candidates : List Window) : Option MatchResult :=
  m.goFBM target none candidates

/-- Embeds `WindowMatcher.removeWindow` (matcher.go): keep each window
that differs from `toRemove` in title or in application name.  Width
is not consulted. -/
def WindowMatcher.removeWindow (_ : WindowMatcher) (windows : List Window)
    (toRemove : Window) : List Window :=
  windows.filter (fun w =>
    w.WindowTitle != toRemove.WindowTitle || w.AppName != toRemove.AppName)

/-- Lookup in the association-list embedding of the Go
`map[string]*MatchResult`. -/
def lookResults (results : List (String × MatchResult)) (k : String) :
    Option MatchResult :=
  (results.find? (fun p => p.1 == k)).map (fun p => p.2)

/-- Insert-or-overwrite in the association-list embedding of the Go
`map[string]*MatchResult`. -/
def mapPut (results : List (String × MatchResult)) (k : String)
    (v : MatchResult) : List (String × MatchResult) :=
  results.filter (fun p => p.1 != k) ++ [(k, v)]

/-- Embeds the loop of `WindowMatcher.MatchWindows` (matcher.go):
greedy in target order over the shrinking available pool. -/
def WindowMatcher.goMatchAll (m : WindowMatcher) :
    List Window → List Window → List (String × MatchResult) →
    List (String × MatchResult)
  | [], _, results => results
  | t :: ts, available, results =>
    match m.FindBestMatch t available with
    | none => m.goMatchAll ts available results
    | some mr =>
      m.goMatchAll ts (m.removeWindow available mr.Window)
        (mapPut results t.WindowTitle mr)

/-- Embeds `WindowMatcher.MatchWindows` (matcher.go). -/
def WindowMatcher.MatchWindows (m : WindowMatcher)
    (targets candidates : List Window) : List (String × MatchResult) :=
  m.goMatchAll targets candidates []

/-- Embeds `snapshot.RestoreOptionsV2` (ManagerV2 orchestrator). -/
structure RestoreOptionsV2 where
  ValidateBeforeRestore : Bool
  SkipMissingApps : Bool
  DryRun : Bool
deriving DecidableEq

/-- Embeds `snapshot.RestoreReport` (ManagerV2 orchestrator); Go zero
values are the defaults. -/
structure RestoreReport where
  SnapshotID : String := ""
  TotalWindows : Nat := 0
  RestoredWindows : Nat := 0
  FailedWindows : List String := []
  MissingApps : List String := []
  Errors : List String := []
  Success : Bool := false
  DryRun : Bool := false
  Error : String := ""
  Message : String := ""
  StartTime : Nat := 0
  EndTime : Nat := 0
  Duration : Int := 0
deriving DecidableEq

/-- The effectful collaborators of `ManagerV2.Restore`, embedded as
explicit inputs: the two repository fetches, the platform window
enumeration used by `validateApps`, the per-window `RestoreWindow`
platform call (`none` = success, `some msg` = error), and the two
clock readings. -/
structure RestoreEnv where
  snapshotRes : Except String (Option Snapshot)
  windowsRes : Except String (List Window)
  currentWindowsRes : Except String (List Window)
  restoreWindow : Window → Option String
  startTime : Nat
  endTime : Nat

/-- The outcome of one embedded `Restore` call: the report and error
actually returned (Go returns both, possibly nil), plus the trace of
windows passed to the platform `RestoreWindow` call. -/
structure RestoreOutcome where
  report : Option RestoreReport
  err : Option String
  calls : List Window
deriving DecidableEq

/-- Embeds Go's `fmt.Sprintf("%v", slice)` rendering of a string
slice. -/
def goSliceFormat (xs : List String) : String :=
  "[" ++ String.intercalate " " xs ++ "]"

/-- Embeds the `checked`/`missing` loop of `ManagerV2.validateApps`:
each distinct app name of the stored windows is checked once, in first
appearance order, and appended to `missing` when not available. -/
def validateAppsGo (available : List String) :
    List Window → List String → List String → List String
  | [], _, missing => missing
  | w :: ws, checked, missing =>
    if w.AppName ∈ checked then validateAppsGo available ws checked missing
    else
      validateAppsGo available ws (w.AppName :: checked)
        (if w.AppName ∈ available then missing else missing ++ [w.AppName])

/-- Embeds `ManagerV2.validateApps` (ManagerV2 orchestrator): on a
window-enumeration error it returns nil (the empty list); otherwise
the first-seen distinct app names of the stored windows that are not
among the currently running app names. -/
def validateApps (currentWindowsRes : Except String (List Window))
    (windows : List Window) : List String :=
  match currentWindowsRes with
  | .error _ => []
  | .ok currentWindows =>
    validateAppsGo (currentWindows.map (fun w => w.AppName)) windows [] []

/-- Accumulator of the restore loop of `ManagerV2.Restore`. -/
structure RestoreAcc where
  restored : Nat
  failed : List String
  errors : List String
deriving DecidableEq

/-- Embeds the window loop of `ManagerV2.Restore`: each failure
appends the title to the failed list and `title: err` to the error
list and the loop continues; each success increments the counter. -/
def restoreLoop (rw : Window → Option String) :
    List Window → RestoreAcc → RestoreAcc
  | [], acc => acc
  | w :: ws, acc =>
    match rw w with
    | some e =>
      restoreLoop rw ws
        ⟨acc.restored, acc.failed ++ [w.WindowTitle],
          acc.errors ++ [w.WindowTitle ++ ": " ++ e]⟩
    | none => restoreLoop rw ws ⟨acc.restored + 1, acc.failed, acc.errors⟩

/-- Embeds the tail of `ManagerV2.Restore` after the validation gate:
the dry-run early return, else the restore loop and the final report
fields (success iff at least one window restored, the two summary
messages, end time and duration). -/
def restorePhase2 (env : RestoreEnv) (opts : RestoreOptionsV2)
    (ws : List Window) (report : RestoreReport) : RestoreOutcome :=
  if opts.DryRun then
    ⟨some { report with
        Success := true
        DryRun := true
        Message := "Dry run completed - no changes made" },
      none, []⟩
  else
    let acc := restoreLoop env.restoreWindow ws ⟨0, [], []⟩
    ⟨some { report with
        RestoredWindows := acc.restored
        FailedWindows := acc.failed
        Errors := acc.errors
        EndTime := env.endTime
        Duration := (env.endTime : Int) - (env.startTime : Int)
        Success := decide (0 < acc.restored)
        Message :=
          if acc.restored = report.TotalWindows then
            "All windows restored successfully"
          else
            "Restored " ++ toString acc.restored ++ "/" ++
              toString report.TotalWindows ++ " windows" },
      none, ws⟩

/-- Embeds `ManagerV2.Restore` (ManagerV2 orchestrator): fetch the
snapshot and its windows (errors and not-found abort with a nil
report), run the optional validation gate, then hand over to the
dry-run check and the restore loop. -/
def Restore (env : RestoreEnv) (snapshotID : String)
    (opts : RestoreOptionsV2) : RestoreOutcome :=
  match env.snapshotRes with
  | .error e => ⟨none, some ("failed to get snapshot: " ++ e), []⟩
  | .ok none => ⟨none, some "snapshot not found", []⟩
  | .ok (some _) =>
    match env.windowsRes with
    | .error e => ⟨none, some ("failed to get windows: " ++ e), []⟩
    | .ok ws =>
      let report0 : RestoreReport :=
        { SnapshotID := snapshotID
          TotalWindows := ws.length
          StartTime := env.startTime }
      if opts.ValidateBeforeRestore then
        let missing := validateApps env.currentWindowsRes ws
        let report1 := { report0 with MissingApps := missing }
        if 0 < missing.length ∧ opts.SkipMissingApps = false then
          ⟨some { report1 with
              Success := false
              Error := "missing applications: " ++ goSliceFormat missing },
            some "cannot restore: missing applications", []⟩
        else restorePhase2 env opts ws report1
      else restorePhase2 env opts ws report0

/-- Embeds `snapshot.DiffResult` (internal/snapshot/manager.go and the
ManagerV2 orchestrator).  The added/removed title lists are built by
iterating Go maps, whose order is unspecified, so they are embedded as
finite sets of titles. -/
structure DiffResult where
  SourceID : String
  TargetID : String
  GitChanged : Bool
  AddedWindows : Finset String
  RemovedWindows : Finset String
  CommonWindows : Nat
deriving DecidableEq

/-- The set of window titles of a window list (the Go
`map[string]bool` of titles). -/
def titleSet (ws : List Window) : Finset String :=
  (ws.map (fun w => w.WindowTitle)).toFinset

/-- Embeds the pure diff computation of `ManagerV2.Diff` /
`Manager.Diff`: git context change, titles only in the target side
(added), only in the source side (removed), and the common count. -/
def DiffCompute (id1 id2 : String) (s1 s2 : Snapshot)
    (w1 w2 : List Window) : DiffResult :=
  { SourceID := id1
    TargetID := id2
    GitChanged := decide (s1.GitBranch ≠ s2.GitBranch ∨ s1.GitRepo ≠ s2.GitRepo)
    AddedWindows := titleSet w2 \ titleSet w1
    RemovedWindows := titleSet w1 \ titleSet w2
    CommonWindows := (titleSet w2 ∩ titleSet w1).card }

/-- Embeds `ManagerV2.Diff`: repository fetch errors propagate, a
missing snapshot on either side is an error, otherwise the pure diff
runs on the two fetched window lists (whose own fetch errors Go
ignores, leaving nil lists, so the lists are parameters here). -/
def Diff (id1 id2 : String)
    (s1Res s2Res : Except String (Option Snapshot))
    (w1 w2 : List Window) : Except String DiffResult :=
  match s1Res with
  | .error e => .error e
  | .ok s1? =>
    match s2Res with
    | .error e => .error e
    | .ok s2? =>
      match s1?, s2? with
      | some s1, some s2 => .ok (DiffCompute id1 id2 s1 s2 w1 w2)
      | _, _ => .error "one or both snapshots not found"

/-! ## Claim-worded variant of the matchAll pool removal (C2) -/

/-- Variant of `removeWindow` following the claim wording only, not
the source: the matched candidate is identified by title AND
application AND width, so only pool entries agreeing on all three are
removed.  Used solely to exhibit that the code (which ignores width)
deviates from this description. -/
def removeWindowByTitleAppWidth (windows : List Window) (toRemove : Window) :
    List Window :=
  windows.filter (fun w =>
    w.WindowTitle != toRemove.WindowTitle || w.AppName != toRemove.AppName ||
      w.Width != toRemove.Width)

/-- The `MatchWindows` loop with the claim-worded removal (title +
application + width). -/
def goMatchAllByTitleAppWidth (m : WindowMatcher) :
    List Window → List Window → List (String × MatchResult) →
    List (String × MatchResult)
  | [], _, results => results
  | t :: ts, available, results =>
    match m.FindBestMatch t available with
    | none => goMatchAllByTitleAppWidth m ts available results
    | some mr =>
      goMatchAllByTitleAppWidth m ts
        (removeWindowByTitleAppWidth available mr.Window)
        (mapPut results t.WindowTitle mr)

/-- `MatchWindows` as the claim describes it: identical greedy loop,
but removal keyed on title + application + width. -/
def MatchWindowsByTitleAppWidth (m : WindowMatcher)
    (targets candidates : List Window) : List (String × MatchResult) :=
  goMatchAllByTitleAppWidth m targets candidates []

/-! ## Concrete fixtures used in witnesses and counterexamples -/

/-- Concrete window used in self-match statements: positive size. -/
def wSelfDemo : Window :=
  ⟨1, "s", "Editor", "/usr/bin/editor", "main.go - myproj - Editor",
    0, 0, 800, 600, "normal", 1, 0, ""⟩

/-- Concrete window with zero width (the data model only requires
non-negative sizes), used to refute C6 as stated. -/
def wZeroWidth : Window :=
  ⟨1, "s", "Editor", "/usr/bin/editor", "A", 0, 0, 0, 600, "normal", 1, 0, ""⟩

/-- Concrete snapshots and windows for the diff scenario of the spec:
first capture has titles A and B, second has B and C. -/
def snapFirst : Snapshot :=
  ⟨"id1", "first", "", 0, 0, "main", "/repo", false, "h1", [], [], [], [], [], []⟩

/-- Second snapshot of the diff scenario. -/
def snapSecond : Snapshot :=
  ⟨"id2", "second", "", 1, 1, "main", "/repo", false, "h2", [], [], [], [], [], []⟩

/-- Window with title A. -/
def winTitleA : Window := ⟨1, "id1", "app", "", "A", 0, 0, 10, 10, "normal", 1, 0, ""⟩

/-- Window with title B. -/
def winTitleB : Window := ⟨2, "id1", "app", "", "B", 0, 0, 10, 10, "normal", 1, 0, ""⟩

/-- Window with title C. -/
def winTitleC : Window := ⟨3, "id2", "app", "", "C", 0, 0, 10, 10, "normal", 1, 0, ""⟩

/-- C2 pool candidate: title "Doc", app "App", width 100. -/
def cexCand1 : Window := ⟨1, "s", "App", "", "Doc", 0, 0, 100, 100, "normal", 1, 0, ""⟩

/-- C2 pool candidate: same title and app as `cexCand1` but width
200. -/
def cexCand2 : Window := ⟨2, "s", "App", "", "Doc", 0, 0, 200, 200, "normal", 1, 0, ""⟩

/-- C2 first target: matches `cexCand1` exactly. -/
def cexTarget1 : Window := ⟨3, "s", "App", "", "Doc", 0, 0, 100, 100, "normal", 1, 0, ""⟩

/-- C2 second target: its best remaining match would be `cexCand2`
(substring title rule, same app, same size). -/
def cexTarget2 : Window := ⟨4, "s", "App", "", "Doc2", 0, 0, 200, 200, "normal", 1, 0, ""⟩

/-- C2 witness target with title Alpha. -/
def tgtAlpha : Window := ⟨5, "s", "AppA", "", "Alpha", 0, 0, 100, 100, "normal", 1, 0, ""⟩

/-- C2 witness target with title Beta. -/
def tgtBeta : Window := ⟨6, "s", "AppB", "", "Beta", 0, 0, 100, 100, "normal", 1, 0, ""⟩

/-- C2 witness candidate matching Alpha. -/
def candAlpha : Window := ⟨7, "s", "AppA", "", "Alpha", 0, 0, 100, 100, "normal", 1, 0, ""⟩

/-- C2 witness candidate matching Beta. -/
def candBeta : Window := ⟨8, "s", "AppB", "", "Beta", 0, 0, 100, 100, "normal", 1, 0, ""⟩

/-- Restore-scenario window 1 (app Editor, restores fine). -/
def winR1 : Window := ⟨1, "snap", "Editor", "", "w1", 0, 0, 100, 100, "normal", 1, 0, ""⟩

/-- Restore-scenario window 2 (app Editor, its reposition call fails). -/
def winR2 : Window := ⟨2, "snap", "Editor", "", "w2", 0, 0, 100, 100, "normal", 1, 0, ""⟩

/-- Restore-scenario window 3 (app Editor, restores fine). -/
def winR3 : Window := ⟨3, "snap", "Editor", "", "w3", 0, 0, 100, 100, "normal", 1, 0, ""⟩

/-- Snapshot fixture for the restore scenarios. -/
def snapRestore : Snapshot :=
  ⟨"snap", "work", "", 0, 0, "main", "/repo", false, "h", [], [], [], [], [], []⟩

/-- Environment for the partial-failure scenario: three stored
windows, the platform fails on the second one only. -/
def envPartial : RestoreEnv :=
  { snapshotRes := .ok (some snapRestore)
    windowsRes := .ok [winR1, winR2, winR3]
    currentWindowsRes := .ok [winR1, winR2, winR3]
    restoreWindow := fun w => if w.WindowTitle = "w2" then some "boom" else none
    startTime := 10
    endTime := 20 }

/-- Environment for the validation-gate scenario: one stored window
whose application is not among the (empty) current windows. -/
def envMissingApp : RestoreEnv :=
  { snapshotRes := .ok (some snapRestore)
    windowsRes := .ok [winR1]
    currentWindowsRes := .ok []
    restoreWindow := fun _ => none
    startTime := 10
    endTime := 20 }

/-- Environment for the validation-fetch-error scenario: enumerating
the current windows fails. -/
def envEnumFails : RestoreEnv :=
  { snapshotRes := .ok (some snapRestore)
    windowsRes := .ok [winR1]
    currentWindowsRes := .error "enumeration failed"
    restoreWindow := fun _ => none
    startTime := 10
    endTime := 20 }

/-- Options: no validation, no dry run. -/
def optsPlain : RestoreOptionsV2 := ⟨false, false, false⟩

/-- Options: validate, do not skip missing apps, no dry run. -/
def optsValidate : RestoreOptionsV2 := ⟨true, false, false⟩

/-- Options: validate, do not skip missing apps, dry run. -/
def optsValidateDry : RestoreOptionsV2 := ⟨true, false, true⟩

/-- Options: no validation, dry run. -/
def optsDry : RestoreOptionsV2 := ⟨false, false, true⟩

/-! ## Helper lemmas -/

lemma scoreTitleMatch_self (m : WindowMatcher) (t : String) :
    m.scoreTitleMatch t t = m.ExactTitleScore := by
  unfold WindowMatcher.scoreTitleMatch
  simp

lemma isSimilarSize_self (m : WindowMatcher) (w : Window)
    (hw : w.Width ≠ 0) (hh : w.Height ≠ 0) :
    m.isSimilarSize w w = true := by
  unfold WindowMatcher.isSimilarSize
  have h10 : (0 : ℚ) ≤ mkRat 1 10 := by decide
  simp [hw, hh, h10]

/-! ## C6: self-match score -/

/-- C6 (amended): for every matcher configuration and every window
with nonzero width and height, matching a window against itself scores
exactly `ExactTitleScore + SameAppScore + SameSizeScore` (160 with the
defaults). -/
theorem calculateScore_self (m : WindowMatcher) (w : Window)
    (hw : w.Width ≠ 0) (hh : w.Height ≠ 0) :
    m.calculateScore w w = m.ExactTitleScore + m.SameAppScore + m.SameSizeScore := by
  unfold WindowMatcher.calculateScore
  rw [scoreTitleMatch_self, isSimilarSize_self m w hw hh]
  simp

/-- C6 witness: the self-match score of a concrete 800x600 window
under the default configuration is 100 + 50 + 10. -/
theorem calculateScore_self_witness :
    DefaultMatcher.calculateScore wSelfDemo wSelfDemo =
      DefaultMatcher.ExactTitleScore + DefaultMatcher.SameAppScore +
        DefaultMatcher.SameSizeScore :=
  calculateScore_self DefaultMatcher wSelfDemo (by decide) (by decide)

/-- C6 counterexample: a window of width 0 matched against itself
scores only 150, not `exactTitleScore + sameAppScore + sameSizeScore`
= 160, because Go divides by `float64(width) = 0` in the size test and
the resulting NaN fails the tolerance comparison.  This refutes the
claim for arbitrary windows. -/
theorem calculateScore_self_cex :
    DefaultMatcher.calculateScore wZeroWidth wZeroWidth = 150 ∧
    DefaultMatcher.ExactTitleScore + DefaultMatcher.SameAppScore +
        DefaultMatcher.SameSizeScore = 160 ∧ (150 : Int) ≠ 160 := by
  refine ⟨by decide, by decide, by decide⟩

/-! ## C7: empty-title target -/

lemma lowerStr_eq_empty_iff (s : String) : lowerStr s = "" ↔ s = "" := by
  constructor
  · intro h
    have hlen : s.data.map Char.toLower = [] := congrArg String.data h
    rcases s with ⟨l⟩
    cases l with
    | nil => rfl
    | cons c cs => simp at hlen
  · intro h; rw [h]; rfl

lemma containsSub_empty (s : String) : containsSub s "" = true := by
  unfold containsSub
  refine List.any_eq_true.mpr ⟨0, ?_, by simp⟩
  simp

/-- C7 (amended): an empty-titled target does reach the substring
rule: since every string contains the empty string, the title score of
a target with empty title is `ExactTitleScore` against an empty
candidate and `PartialTitleScore` against every other candidate; the
token-overlap rule is never reached. -/
theorem scoreTitleMatch_empty_target (m : WindowMatcher) (candidate : String) :
    m.scoreTitleMatch "" candidate =
      if candidate = "" then m.ExactTitleScore else m.PartialTitleScore := by
  by_cases hc : candidate = ""
  · simp [WindowMatcher.scoreTitleMatch, hc]
  · have h1 : ¬("" = candidate) := fun h => hc h.symm
    have hlow : lowerStr "" = "" := rfl
    have h2 : ¬("" = lowerStr candidate) := by
      intro h
      exact hc ((lowerStr_eq_empty_iff candidate).mp h.symm)
    simp [WindowMatcher.scoreTitleMatch, h1, h2, hc, hlow, containsSub_empty]

/-- C7 counterexample: with the default configuration, the empty
target title against candidate "x" scores 50 through the substring
rule, not 0 by falling through to token overlap - indeed the two
titles share no tokens at all. -/
theorem scoreTitleMatch_empty_target_cex :
    DefaultMatcher.scoreTitleMatch "" "x" = 50 ∧
    DefaultMatcher.countCommonTokens (fieldsStr "") (fieldsStr "x") = 0 ∧
    (50 : Int) ≠ 0 := by
  refine ⟨by decide, by decide, by decide⟩

/-! ## C8: token-overlap division safety -/

lemma countCommonTokens_nil (m : WindowMatcher) (tokens2 : List String) :
    m.countCommonTokens [] tokens2 = 0 := by
  unfold WindowMatcher.countCommonTokens
  simp

/-- C8: the token-overlap rule cannot divide by a zero-length target
token list: a target that tokenizes to no tokens shares no tokens with
any candidate, so the guarded division is never reached with a zero
divisor - whenever the common-token count is positive the target token
list is nonempty, and the rule yields 0 for a tokenless target. -/
theorem tokenRule_division_safe (m : WindowMatcher) (target candidate : String) :
    (fieldsStr target = [] →
      m.countCommonTokens (fieldsStr target) (fieldsStr candidate) = 0) ∧
    (0 < m.countCommonTokens (fieldsStr target) (fieldsStr candidate) →
      0 < (fieldsStr target).length) := by
  constructor
  · intro h
    rw [h]
    exact countCommonTokens_nil m _
  · intro h
    by_contra hlen
    have hnil : fieldsStr target = [] := by
      cases hfs : fieldsStr target with
      | nil => rfl
      | cons a l => rw [hfs] at hlen; simp at hlen
    rw [hnil, countCommonTokens_nil] at h
    exact Nat.lt_irrefl 0 h

/-- C8 witness: target "a b" and candidate "b c" share one token, and
the theorem yields the positive divisor (token count 2). -/
theorem tokenRule_division_safe_witness :
    0 < DefaultMatcher.countCommonTokens (fieldsStr "a b") (fieldsStr "b c") ∧
    0 < (fieldsStr "a b").length :=
  ⟨by decide, (tokenRule_division_safe DefaultMatcher "a b" "b c").2 (by decide)⟩

/-! ## C9: diff symmetry -/

/-- C9: for the same two window lists, the titles reported as added by
`diff(A, B)` are exactly those reported as removed by `diff(B, A)`,
and vice versa. -/
theorem diff_symmetric (id1 id2 id1' id2' : String) (s1 s2 : Snapshot)
    (w1 w2 : List Window) (d12 d21 : DiffResult)
    (h12 : Diff id1 id2 (.ok (some s1)) (.ok (some s2)) w1 w2 = .ok d12)
    (h21 : Diff id1' id2' (.ok (some s2)) (.ok (some s1)) w2 w1 = .ok d21) :
    d12.AddedWindows = d21.RemovedWindows ∧
    d12.RemovedWindows = d21.AddedWindows := by
  have e12 : d12 = DiffCompute id1 id2 s1 s2 w1 w2 := by
    have := h12
    unfold Diff at this
    exact (Except.ok.injEq _ _).mp this.symm |>.symm ▸ rfl
  have e21 : d21 = DiffCompute id1' id2' s2 s1 w2 w1 := by
    have := h21
    unfold Diff at this
    exact (Except.ok.injEq _ _).mp this.symm |>.symm ▸ rfl
  subst e12
  subst e21
  exact ⟨rfl, rfl⟩


/-- C9 witness: on the spec scenario (titles A,B versus B,C) the added
set of the forward diff equals the removed set of the reverse diff,
and that set is exactly the singleton C; the common counter is 1. -/
theorem diff_symmetric_witness :
    (DiffCompute "id1" "id2" snapFirst snapSecond [winTitleA, winTitleB]
        [winTitleB, winTitleC]).AddedWindows =
      (DiffCompute "id2" "id1" snapSecond snapFirst [winTitleB, winTitleC]
        [winTitleA, winTitleB]).RemovedWindows ∧
    (DiffCompute "id1" "id2" snapFirst snapSecond [winTitleA, winTitleB]
        [winTitleB, winTitleC]).AddedWindows = {"C"} ∧
    (DiffCompute "id1" "id2" snapFirst snapSecond [winTitleA, winTitleB]
        [winTitleB, winTitleC]).RemovedWindows = {"A"} ∧
    (DiffCompute "id1" "id2" snapFirst snapSecond [winTitleA, winTitleB]
        [winTitleB, winTitleC]).CommonWindows = 1 := by
  refine ⟨?_, by decide, by decide, by decide⟩
  exact (diff_symmetric "id1" "id2" "id2" "id1" snapFirst snapSecond
    [winTitleA, winTitleB] [winTitleB, winTitleC] _ _ rfl rfl).1

/-! ## C1: FindBestMatch characterization -/

lemma stepFBM_not_le (m : WindowMatcher) (t c : Window) (best : Option MatchResult)
    (hth : ¬ m.MinimumScore ≤ m.calculateScore t c) :
    m.stepFBM t best c = best := by
  unfold WindowMatcher.stepFBM
  rw [if_neg hth]

lemma stepFBM_none_iff (m : WindowMatcher) (t c : Window) (best : Option MatchResult) :
    m.stepFBM t best c = none ↔
      best = none ∧ ¬ m.MinimumScore ≤ m.calculateScore t c := by
  unfold WindowMatcher.stepFBM
  by_cases hth : m.MinimumScore ≤ m.calculateScore t c
  · rw [if_pos hth]
    cases best with
    | none => simp [hth]
    | some b =>
      by_cases hlt : b.Score < m.calculateScore t c <;> simp [hlt, hth]
  · rw [if_neg hth]
    simp [hth]

lemma stepFBM_le (m : WindowMatcher) (t c : Window) (best : Option MatchResult)
    (hth : m.MinimumScore ≤ m.calculateScore t c) :
    ∃ b', m.stepFBM t best c = some b' ∧ m.calculateScore t c ≤ b'.Score ∧
      ∀ b, best = some b → b.Score ≤ b'.Score := by
  cases best with
  | none =>
    simp only [WindowMatcher.stepFBM]
    rw [if_pos hth]
    exact ⟨⟨c, m.calculateScore t c⟩, rfl, le_refl _, by simp⟩
  | some b =>
    simp only [WindowMatcher.stepFBM]
    rw [if_pos hth]
    by_cases hlt : b.Score < m.calculateScore t c
    · rw [if_pos hlt]
      refine ⟨⟨c, m.calculateScore t c⟩, rfl, le_refl _, ?_⟩
      intro b0 hb0
      cases hb0
      exact le_of_lt hlt
    · rw [if_neg hlt]
      refine ⟨b, rfl, not_lt.mp hlt, ?_⟩
      intro b0 hb0
      cases hb0
      exact le_refl _

lemma stepFBM_inv (m : WindowMatcher) (t c : Window) (best : Option MatchResult)
    (r : MatchResult) (h : m.stepFBM t best c = some r) :
    best = some r ∨
      (r = ⟨c, m.calculateScore t c⟩ ∧ m.MinimumScore ≤ m.calculateScore t c ∧
        ∀ b, best = some b → b.Score < m.calculateScore t c) := by
  by_cases hth : m.MinimumScore ≤ m.calculateScore t c
  · cases best with
    | none =>
      simp only [WindowMatcher.stepFBM] at h
      rw [if_pos hth] at h
      right
      refine ⟨(Option.some.injEq _ _).mp h |>.symm, hth, by simp⟩
    | some b =>
      simp only [WindowMatcher.stepFBM] at h
      rw [if_pos hth] at h
      by_cases hlt : b.Score < m.calculateScore t c
      · rw [if_pos hlt] at h
        right
        refine ⟨(Option.some.injEq _ _).mp h |>.symm, hth, ?_⟩
        intro b0 hb0
        cases hb0
        exact hlt
      · rw [if_neg hlt] at h
        exact Or.inl h
  · rw [stepFBM_not_le m t c best hth] at h
    exact Or.inl h

lemma goFBM_char (m : WindowMatcher) (t : Window) :
    ∀ (cs : List Window) (best : Option MatchResult),
      (m.goFBM t best cs = none ↔
        best = none ∧ ∀ c ∈ cs, m.calculateScore t c < m.MinimumScore) ∧
      (∀ r, m.goFBM t best cs = some r →
        (best = some r ∧ ∀ c ∈ cs, m.MinimumScore ≤ m.calculateScore t c →
            m.calculateScore t c ≤ r.Score) ∨
        (m.MinimumScore ≤ r.Score ∧ r.Score = m.calculateScore t r.Window ∧
          (∀ c ∈ cs, m.MinimumScore ≤ m.calculateScore t c →
            m.calculateScore t c ≤ r.Score) ∧
          (∀ b, best = some b → b.Score < r.Score) ∧
          ∃ i : Nat, cs[i]? = some r.Window ∧
            ∀ j w, j < i → cs[j]? = some w →
              m.MinimumScore ≤ m.calculateScore t w →
              m.calculateScore t w < r.Score)) := by
  intro cs
  induction cs with
  | nil =>
    intro best
    constructor
    · simp [WindowMatcher.goFBM]
    · intro r hr
      simp only [WindowMatcher.goFBM] at hr
      exact Or.inl ⟨hr, by simp⟩
  | cons c cs ih =>
    intro best
    have hstep : m.goFBM t best (c :: cs) = m.goFBM t (m.stepFBM t best c) cs := rfl
    obtain ⟨ihNone, ihSome⟩ := ih (m.stepFBM t best c)
    constructor
    · rw [hstep, ihNone, stepFBM_none_iff]
      constructor
      · rintro ⟨⟨hb, hth⟩, hall⟩
        refine ⟨hb, ?_⟩
        intro x hx
        rcases List.mem_cons.mp hx with hxc | hxcs
        · rw [hxc]
          exact not_le.mp hth
        · exact hall x hxcs
      · rintro ⟨hb, hall⟩
        refine ⟨⟨hb, not_le.mpr (hall c (List.mem_cons_self c cs))⟩, ?_⟩
        intro x hx
        exact hall x (List.mem_cons_of_mem c hx)
    · intro r hr
      rw [hstep] at hr
      rcases ihSome r hr with ⟨hb', hmax⟩ | ⟨hmin, hscore, hmax, hbeat, i, hi, hearlier⟩
      · rcases stepFBM_inv m t c best r hb' with hbr | ⟨hreq, hth', hball⟩
        · left
          refine ⟨hbr, ?_⟩
          intro x hx hthx
          rcases List.mem_cons.mp hx with hxc | hxcs
          · subst hxc
            obtain ⟨b', hb'eq, hfc, _⟩ := stepFBM_le m t x best hthx
            rw [hb'eq] at hb'
            cases hb'
            exact hfc
          · exact hmax x hxcs hthx
        · right
          subst hreq
          refine ⟨hth', rfl, ?_, ?_, 0, ?_, ?_⟩
          · intro x hx hthx
            rcases List.mem_cons.mp hx with hxc | hxcs
            · subst hxc
              exact le_refl _
            · exact hmax x hxcs hthx
          · intro b hb
            exact hball b hb
          · simp
          · intro j w hj _ _
            exact absurd hj (Nat.not_lt_zero j)
      · right
        have hfcbound : m.MinimumScore ≤ m.calculateScore t c →
            m.calculateScore t c < r.Score := by
          intro hth
          obtain ⟨b', hb'eq, hfc, _⟩ := stepFBM_le m t c best hth
          exact lt_of_le_of_lt hfc (hbeat b' hb'eq)
        refine ⟨hmin, hscore, ?_, ?_, i + 1, ?_, ?_⟩
        · intro x hx hthx
          rcases List.mem_cons.mp hx with hxc | hxcs
          · subst hxc
            exact le_of_lt (hfcbound hthx)
          · exact hmax x hxcs hthx
        · intro b hb
          by_cases hth : m.MinimumScore ≤ m.calculateScore t c
          · obtain ⟨b', hb'eq, _, hmono⟩ := stepFBM_le m t c best hth
            exact lt_of_le_of_lt (hmono b hb) (hbeat b' hb'eq)
          · rw [stepFBM_not_le m t c best hth] at hbeat
            exact hbeat b hb
        · simpa using hi
        · intro j w hj hjw hthw
          cases j with
          | zero =>
            simp at hjw
            subst hjw
            exact hfcbound hthw
          | succ j =>
            have hj' : j < i := Nat.lt_of_succ_lt_succ hj
            have hjw' : cs[j]? = some w := by simpa using hjw
            exact hearlier j w hj' hjw' hthw

/-- C1: `FindBestMatch` returns `none` exactly when every candidate
scores below `MinimumScore` (in particular on an empty candidate list;
the Go function has no error return at all), and any returned match
carries the score of its window, reaches `MinimumScore`, is maximal
among all candidates, and is the first-seen candidate attaining that
maximal score (every earlier candidate scores strictly less). -/
theorem findBestMatch_correct (m : WindowMatcher) (t : Window) (cs : List Window) :
    (m.FindBestMatch t cs = none ↔
      ∀ c ∈ cs, m.calculateScore t c < m.MinimumScore) ∧
    (∀ r, m.FindBestMatch t cs = some r →
      m.MinimumScore ≤ r.Score ∧ r.Score = m.calculateScore t r.Window ∧
      (∀ c ∈ cs, m.calculateScore t c ≤ r.Score) ∧
      ∃ i : Nat, cs[i]? = some r.Window ∧
        ∀ j w, j < i → cs[j]? = some w → m.calculateScore t w < r.Score) := by
  obtain ⟨hnone, hsome⟩ := goFBM_char m t cs none
  constructor
  · rw [WindowMatcher.FindBestMatch, hnone]
    simp
  · intro r hr
    rcases hsome r hr with ⟨hb, _⟩ | ⟨hmin, hscore, hmax, _, i, hi, hearlier⟩
    · exact absurd hb (by simp)
    · refine ⟨hmin, hscore, ?_, i, hi, ?_⟩
      · intro x hx
        by_cases hthx : m.MinimumScore ≤ m.calculateScore t x
        · exact hmax x hx hthx
        · exact le_of_lt (lt_of_lt_of_le (not_le.mp hthx) hmin)
      · intro j w hj hjw
        by_cases hthw : m.MinimumScore ≤ m.calculateScore t w
        · exact hearlier j w hj hjw hthw
        · exact lt_of_lt_of_le (not_le.mp hthw) hmin

/-- C1 witness: applying the characterization to a self-match on a
concrete window shows the returned score 160 reaches the default
threshold 60. -/
theorem findBestMatch_correct_witness :
    DefaultMatcher.MinimumScore ≤ (160 : Int) :=
  ((findBestMatch_correct DefaultMatcher wSelfDemo [wSelfDemo]).2
    ⟨wSelfDemo, 160⟩ (by decide)).1

/-! ## C2: matchAll never reuses a candidate -/

lemma lookResults_cons (p : String × MatchResult)
    (mp : List (String × MatchResult)) (k : String) :
    lookResults (p :: mp) k = if p.1 = k then some p.2 else lookResults mp k := by
  unfold lookResults
  by_cases hp : p.1 = k
  · simp [hp]
  · rw [if_neg hp, List.find?_cons_of_neg _ (by simp [hp])]

lemma mapPut_cons (p : String × MatchResult) (mp : List (String × MatchResult))
    (k : String) (v : MatchResult) :
    mapPut (p :: mp) k v =
      if p.1 != k then p :: mapPut mp k v else mapPut mp k v := by
  unfold mapPut
  by_cases hp : p.1 = k
  · rw [if_neg (by simp [hp]), List.filter_cons, if_neg (by simp [hp])]
  · rw [if_pos (by simp [hp]), List.filter_cons, if_pos (by simp [hp]),
      List.cons_append]

lemma lookResults_mapPut_self (mp : List (String × MatchResult)) (k : String)
    (v : MatchResult) : lookResults (mapPut mp k v) k = some v := by
  induction mp with
  | nil =>
    unfold mapPut lookResults
    simp
  | cons p mp ih =>
    rw [mapPut_cons]
    by_cases hp : p.1 = k
    · rw [if_neg (by simp [hp])]
      exact ih
    · rw [if_pos (by simp [hp]), lookResults_cons, if_neg hp]
      exact ih

lemma lookResults_mapPut_ne (mp : List (String × MatchResult)) (k k' : String)
    (v : MatchResult) (h : k' ≠ k) :
    lookResults (mapPut mp k v) k' = lookResults mp k' := by
  induction mp with
  | nil =>
    unfold mapPut lookResults
    have hk : ¬ k = k' := fun hh => h hh.symm
    simp [hk]
  | cons p mp ih =>
    rw [mapPut_cons]
    by_cases hp : p.1 = k
    · have hpk' : ¬ p.1 = k' := by
        rw [hp]
        exact fun hh => h hh.symm
      rw [if_neg (by simp [hp]), ih, lookResults_cons, if_neg hpk']
    · rw [if_pos (by simp [hp]), lookResults_cons, lookResults_cons]
      by_cases hpk' : p.1 = k'
      · rw [if_pos hpk', if_pos hpk']
      · rw [if_neg hpk', if_neg hpk']
        exact ih

lemma findBestMatch_mem (m : WindowMatcher) (t : Window) (cs : List Window)
    (r : MatchResult) (h : m.FindBestMatch t cs = some r) : r.Window ∈ cs := by
  rcases (goFBM_char m t cs none).2 r h with ⟨hb, _⟩ | ⟨_, _, _, _, i, hi, _⟩
  · exact absurd hb (by simp)
  · exact List.getElem?_mem hi

/-- Two windows agree on the title+application key used by
`removeWindow`. -/
def sameTitleApp (a b : Window) : Prop :=
  a.WindowTitle = b.WindowTitle ∧ a.AppName = b.AppName

lemma mem_removeWindow (m : WindowMatcher) (ws : List Window) (x w : Window)
    (h : w ∈ m.removeWindow ws x) : w ∈ ws ∧ ¬ sameTitleApp w x := by
  unfold WindowMatcher.removeWindow at h
  obtain ⟨hmem, hcond⟩ := List.mem_filter.mp h
  refine ⟨hmem, ?_⟩
  intro ⟨ht, ha⟩
  rw [ht, ha] at hcond
  simp at hcond

/-- Loop invariant of `goMatchAll`: distinct keys of the result map
hold matches with distinct title+application, and every recorded match
is title+application-disjoint from the whole available pool. -/
def MatchInv (results : List (String × MatchResult))
    (available : List Window) : Prop :=
  (∀ k1 k2 r1 r2, lookResults results k1 = some r1 →
    lookResults results k2 = some r2 → k1 ≠ k2 →
    ¬ sameTitleApp r1.Window r2.Window) ∧
  (∀ k r, lookResults results k = some r → ∀ w ∈ available,
    ¬ sameTitleApp w r.Window)

lemma matchInv_step (m : WindowMatcher) (t : Window) (available : List Window)
    (results : List (String × MatchResult)) (mr : MatchResult)
    (hmr : m.FindBestMatch t available = some mr)
    (hinv : MatchInv results available) :
    MatchInv (mapPut results t.WindowTitle mr)
      (m.removeWindow available mr.Window) := by
  obtain ⟨hpair, hpool⟩ := hinv
  have hmem : mr.Window ∈ available := findBestMatch_mem m t available mr hmr
  constructor
  · intro k1 k2 r1 r2 h1 h2 hne
    by_cases hk1 : k1 = t.WindowTitle
    · subst hk1
      rw [lookResults_mapPut_self] at h1
      cases h1
      have hk2 : k2 ≠ t.WindowTitle := fun hh => hne hh.symm
      rw [lookResults_mapPut_ne results t.WindowTitle k2 mr hk2] at h2
      exact hpool k2 r2 h2 mr.Window hmem
    · rw [lookResults_mapPut_ne results t.WindowTitle k1 mr hk1] at h1
      by_cases hk2 : k2 = t.WindowTitle
      · subst hk2
        rw [lookResults_mapPut_self] at h2
        cases h2
        exact fun hsame => hpool k1 r1 h1 mr.Window hmem ⟨hsame.1.symm, hsame.2.symm⟩
      · rw [lookResults_mapPut_ne results t.WindowTitle k2 mr hk2] at h2
        exact hpair k1 k2 r1 r2 h1 h2 hne
  · intro k r hk w hw
    obtain ⟨hwin, hwnot⟩ := mem_removeWindow m available mr.Window w hw
    by_cases hkt : k = t.WindowTitle
    · subst hkt
      rw [lookResults_mapPut_self] at hk
      cases hk
      exact hwnot
    · rw [lookResults_mapPut_ne results t.WindowTitle k mr hkt] at hk
      exact hpool k r hk w hwin

lemma goMatchAll_inv (m : WindowMatcher) :
    ∀ (ts available : List Window) (results : List (String × MatchResult)),
      MatchInv results available →
      ∀ k1 k2 r1 r2, lookResults (m.goMatchAll ts available results) k1 = some r1 →
        lookResults (m.goMatchAll ts available results) k2 = some r2 → k1 ≠ k2 →
        ¬ sameTitleApp r1.Window r2.Window := by
  intro ts
  induction ts with
  | nil =>
    intro available results hinv k1 k2 r1 r2 h1 h2 hne
    exact hinv.1 k1 k2 r1 r2 h1 h2 hne
  | cons t ts ih =>
    intro available results hinv k1 k2 r1 r2 h1 h2 hne
    cases hfb : m.FindBestMatch t available with
    | none =>
      have hgo : m.goMatchAll (t :: ts) available results =
          m.goMatchAll ts available results := by
        simp only [WindowMatcher.goMatchAll, hfb]
      rw [hgo] at h1 h2
      exact ih available results hinv k1 k2 r1 r2 h1 h2 hne
    | some mr =>
      have hgo : m.goMatchAll (t :: ts) available results =
          m.goMatchAll ts (m.removeWindow available mr.Window)
            (mapPut results t.WindowTitle mr) := by
        simp only [WindowMatcher.goMatchAll, hfb]
      rw [hgo] at h1 h2
      exact ih _ _ (matchInv_step m t available results mr hfb hinv)
        k1 k2 r1 r2 h1 h2 hne

/-- C2 (amended): `MatchWindows` processes targets in caller order and
after recording a match removes every pool candidate that agrees with
the matched window in title AND application (width is not part of the
removal identity); consequently two different result keys never hold
candidates agreeing on title+application, and a fortiori never the
same title+application+width candidate. -/
theorem matchWindows_no_reuse (m : WindowMatcher)
    (targets candidates : List Window) (k1 k2 : String) (r1 r2 : MatchResult)
    (h1 : lookResults (m.MatchWindows targets candidates) k1 = some r1)
    (h2 : lookResults (m.MatchWindows targets candidates) k2 = some r2)
    (hne : k1 ≠ k2) :
    (r1.Window.WindowTitle ≠ r2.Window.WindowTitle ∨
      r1.Window.AppName ≠ r2.Window.AppName) ∧
    ¬ (r1.Window.WindowTitle = r2.Window.WindowTitle ∧
       r1.Window.AppName = r2.Window.AppName ∧
       r1.Window.Width = r2.Window.Width) := by
  have hinit : MatchInv [] candidates := by
    constructor
    · intro k1' k2' r1' r2' h1' _ _
      simp [lookResults] at h1'
    · intro k r h
      simp [lookResults] at h
  have hmain := goMatchAll_inv m targets candidates [] hinit k1 k2 r1 r2 h1 h2 hne
  constructor
  · by_contra hcon
    push_neg at hcon
    exact hmain ⟨hcon.1, hcon.2⟩
  · intro ⟨ht, ha, _⟩
    exact hmain ⟨ht, ha⟩

/-- C2 counterexample: the claim says removal identifies the used
candidate by title+application+width.  On this input the code removes
BOTH pool windows (same title and application, different widths) after
the first target matches, so the second target gets no match; the
claim-worded removal would keep the width-200 window and give the
second target a 110-point match.  The claim, as stated, is therefore
false of the code. -/
theorem matchWindows_width_identity_cex :
    lookResults (DefaultMatcher.MatchWindows [cexTarget1, cexTarget2]
      [cexCand1, cexCand2]) "Doc2" = none ∧
    lookResults (MatchWindowsByTitleAppWidth DefaultMatcher
      [cexTarget1, cexTarget2] [cexCand1, cexCand2]) "Doc2" =
        some ⟨cexCand2, 110⟩ := by
  refine ⟨by decide, by decide⟩

/-- C2 witness: on a run where both targets are matched, the two
recorded matches differ in title+application (and hence also as
title+application+width triples). -/
theorem matchWindows_no_reuse_witness :
    ("Alpha" : String) ≠ "Beta" ∧
    ((candAlpha.WindowTitle ≠ candBeta.WindowTitle ∨
        candAlpha.AppName ≠ candBeta.AppName) ∧
      ¬ (candAlpha.WindowTitle = candBeta.WindowTitle ∧
         candAlpha.AppName = candBeta.AppName ∧
         candAlpha.Width = candBeta.Width)) :=
  ⟨by decide,
    matchWindows_no_reuse DefaultMatcher [tgtAlpha, tgtBeta]
      [candAlpha, candBeta] "Alpha" "Beta" ⟨candAlpha, 160⟩ ⟨candBeta, 160⟩
      (by decide) (by decide) (by decide)⟩

/-! ## Restore lemmas -/

lemma restoreLoop_spec (rw : Window → Option String) :
    ∀ (ws : List Window) (acc : RestoreAcc),
      restoreLoop rw ws acc =
        ⟨acc.restored + (ws.filter (fun w => (rw w).isNone)).length,
          acc.failed ++ (ws.filter (fun w => (rw w).isSome)).map
            (fun w => w.WindowTitle),
          acc.errors ++ (ws.filter (fun w => (rw w).isSome)).map
            (fun w => w.WindowTitle ++ ": " ++ ((rw w).getD ""))⟩ := by
  intro ws
  induction ws with
  | nil =>
    intro acc
    simp [restoreLoop]
  | cons w ws ih =>
    intro acc
    cases hrw : rw w with
    | some e =>
      have hgo : restoreLoop rw (w :: ws) acc =
          restoreLoop rw ws
            ⟨acc.restored, acc.failed ++ [w.WindowTitle],
              acc.errors ++ [w.WindowTitle ++ ": " ++ e]⟩ := by
        simp only [restoreLoop, hrw]
      rw [hgo, ih]
      simp [List.filter_cons, hrw]
    | none =>
      have hgo : restoreLoop rw (w :: ws) acc =
          restoreLoop rw ws ⟨acc.restored + 1, acc.failed, acc.errors⟩ := by
        simp only [restoreLoop, hrw]
      rw [hgo, ih]
      simp [List.filter_cons, hrw]
      omega

lemma restorePhase2_dry (env : RestoreEnv) (opts : RestoreOptionsV2)
    (ws : List Window) (report : RestoreReport) (hdry : opts.DryRun = true) :
    restorePhase2 env opts ws report =
      ⟨some { report with
          Success := true
          DryRun := true
          Message := "Dry run completed - no changes made" },
        none, []⟩ := by
  unfold restorePhase2
  rw [if_pos hdry]

lemma restorePhase2_run (env : RestoreEnv) (opts : RestoreOptionsV2)
    (ws : List Window) (report : RestoreReport) (hdry : opts.DryRun = false) :
    restorePhase2 env opts ws report =
      ⟨some { report with
          RestoredWindows :=
            (ws.filter (fun w => (env.restoreWindow w).isNone)).length
          FailedWindows := (ws.filter (fun w => (env.restoreWindow w).isSome)).map
            (fun w => w.WindowTitle)
          Errors := (ws.filter (fun w => (env.restoreWindow w).isSome)).map
            (fun w => w.WindowTitle ++ ": " ++ ((env.restoreWindow w).getD ""))
          EndTime := env.endTime
          Duration := (env.endTime : Int) - (env.startTime : Int)
          Success :=
            decide (0 < (ws.filter (fun w => (env.restoreWindow w).isNone)).length)
          Message :=
            if (ws.filter (fun w => (env.restoreWindow w).isNone)).length =
                report.TotalWindows then
              "All windows restored successfully"
            else
              "Restored " ++
                toString (ws.filter (fun w => (env.restoreWindow w).isNone)).length
                ++ "/" ++ toString report.TotalWindows ++ " windows" },
        none, ws⟩ := by
  unfold restorePhase2
  rw [if_neg (by simp [hdry]), restoreLoop_spec]
  simp

lemma validateAppsGo_missing_sub (available : List String) :
    ∀ (ws : List Window) (checked missing : List String) (a : String),
      a ∈ missing → a ∈ validateAppsGo available ws checked missing := by
  intro ws
  induction ws with
  | nil =>
    intro checked missing a ha
    simpa [validateAppsGo] using ha
  | cons w ws ih =>
    intro checked missing a ha
    by_cases hchk : w.AppName ∈ checked
    · rw [show validateAppsGo available (w :: ws) checked missing =
          validateAppsGo available ws checked missing by
        simp only [validateAppsGo, if_pos hchk]]
      exact ih checked missing a ha
    · rw [show validateAppsGo available (w :: ws) checked missing =
          validateAppsGo available ws (w.AppName :: checked)
            (if w.AppName ∈ available then missing else missing ++ [w.AppName]) by
        simp only [validateAppsGo, if_neg hchk]]
      apply ih
      by_cases hav : w.AppName ∈ available
      · rw [if_pos hav]
        exact ha
      · rw [if_neg hav]
        exact List.mem_append_left _ ha

lemma validateAppsGo_mem (available : List String) :
    ∀ (ws : List Window) (checked missing : List String),
      (∀ a, a ∈ checked → a ∉ available → a ∈ missing) →
      ∀ w ∈ ws, w.AppName ∉ available →
        w.AppName ∈ validateAppsGo available ws checked missing := by
  intro ws
  induction ws with
  | nil =>
    intro checked missing _ w hw
    exact absurd hw (List.not_mem_nil w)
  | cons w' ws ih =>
    intro checked missing hinv w hw hna
    by_cases hchk : w'.AppName ∈ checked
    · rw [show validateAppsGo available (w' :: ws) checked missing =
          validateAppsGo available ws checked missing by
        simp only [validateAppsGo, if_pos hchk]]
      rcases List.mem_cons.mp hw with hww' | hwws
      · subst hww'
        exact validateAppsGo_missing_sub available ws checked missing _
          (hinv _ hchk hna)
      · exact ih checked missing hinv w hwws hna
    · rw [show validateAppsGo available (w' :: ws) checked missing =
          validateAppsGo available ws (w'.AppName :: checked)
            (if w'.AppName ∈ available then missing else missing ++ [w'.AppName]) by
        simp only [validateAppsGo, if_neg hchk]]
      have hinv' : ∀ a, a ∈ w'.AppName :: checked → a ∉ available →
          a ∈ (if w'.AppName ∈ available then missing else missing ++ [w'.AppName]) := by
        intro a ha hana
        rcases List.mem_cons.mp ha with haw | hac
        · subst haw
          rw [if_neg hana]
          exact List.mem_append_right _ (List.mem_singleton.mpr rfl)
        · by_cases hav : w'.AppName ∈ available
          · rw [if_pos hav]
            exact hinv a hac hana
          · rw [if_neg hav]
            exact List.mem_append_left _ (hinv a hac hana)
      rcases List.mem_cons.mp hw with hww' | hwws
      · subst hww'
        apply validateAppsGo_missing_sub
        rw [if_neg hna]
        exact List.mem_append_right _ (List.mem_singleton.mpr rfl)
      · exact ih _ _ hinv' w hwws hna

lemma validateApps_ne_nil (curr : List Window) (ws : List Window)
    (h : ∃ w ∈ ws, w.AppName ∉ curr.map (fun x => x.AppName)) :
    validateApps (.ok curr) ws ≠ [] := by
  obtain ⟨w, hw, hna⟩ := h
  have hmem := validateAppsGo_mem (curr.map (fun x => x.AppName)) ws [] []
    (by intro a ha _; exact absurd ha (List.not_mem_nil a)) w hw hna
  intro hnil
  rw [validateApps] at hnil
  rw [hnil] at hmem
  exact List.not_mem_nil _ hmem

lemma restore_gate_pass (env : RestoreEnv) (id : String) (opts : RestoreOptionsV2)
    (s : Snapshot) (ws : List Window)
    (hs : env.snapshotRes = .ok (some s)) (hw : env.windowsRes = .ok ws)
    (hgate : opts.ValidateBeforeRestore = false ∨
      validateApps env.currentWindowsRes ws = [] ∨ opts.SkipMissingApps = true) :
    Restore env id opts = restorePhase2 env opts ws
      { SnapshotID := id
        TotalWindows := ws.length
        StartTime := env.startTime
        MissingApps :=
          if opts.ValidateBeforeRestore then
            validateApps env.currentWindowsRes ws
          else [] } := by
  cases env with
  | mk sr wr cr rwf st et =>
    dsimp only at hs hw ⊢
    subst hs
    subst hw
    by_cases hv : opts.ValidateBeforeRestore
    · have hcond : ¬ (0 < (validateApps cr ws).length ∧ opts.SkipMissingApps = false) := by
        rcases hgate with hgf | hnil | hsk
        · rw [hv] at hgf
          simp at hgf
        · rw [hnil]
          simp
        · rw [hsk]
          simp
      simp only [Restore, if_pos hv, if_neg hcond, if_pos hv]
    · simp only [Restore, if_neg hv]

lemma restore_gate_fail (env : RestoreEnv) (id : String) (opts : RestoreOptionsV2)
    (s : Snapshot) (ws : List Window)
    (hs : env.snapshotRes = .ok (some s)) (hw : env.windowsRes = .ok ws)
    (hv : opts.ValidateBeforeRestore = true)
    (hskip : opts.SkipMissingApps = false)
    (hne : validateApps env.currentWindowsRes ws ≠ []) :
    Restore env id opts =
      ⟨some
        { SnapshotID := id
          TotalWindows := ws.length
          StartTime := env.startTime
          MissingApps := validateApps env.currentWindowsRes ws
          Success := false
          Error := "missing applications: " ++
            goSliceFormat (validateApps env.currentWindowsRes ws) },
        some "cannot restore: missing applications", []⟩ := by
  cases env with
  | mk sr wr cr rwf st et =>
    dsimp only at hs hw ⊢
    subst hs
    subst hw
    have hcond : 0 < (validateApps cr ws).length ∧ opts.SkipMissingApps = false :=
      ⟨List.length_pos.mpr hne, hskip⟩
    simp only [Restore, if_pos hv, if_pos hcond]

/-! ## C3: partial failures accumulate, restore still reports -/

/-- C3: when the snapshot and its windows load, the run is not a dry
run and the validation gate does not trip, `Restore` returns a report
and no error regardless of which per-window `RestoreWindow` calls
fail: the failed-window list holds exactly the titles of the failing
windows (one entry each, in order), processing reaches every window,
`RestoredWindows` counts exactly the successes, and the success flag
is true iff at least one window was restored. -/
theorem restore_partial_failure (env : RestoreEnv) (id : String)
    (opts : RestoreOptionsV2) (s : Snapshot) (ws : List Window)
    (hs : env.snapshotRes = .ok (some s)) (hw : env.windowsRes = .ok ws)
    (hdry : opts.DryRun = false)
    (hgate : opts.ValidateBeforeRestore = false ∨
      validateApps env.currentWindowsRes ws = [] ∨ opts.SkipMissingApps = true) :
    (Restore env id opts).err = none ∧
    (Restore env id opts).calls = ws ∧
    ∃ rep, (Restore env id opts).report = some rep ∧
      rep.TotalWindows = ws.length ∧
      rep.RestoredWindows =
        (ws.filter (fun w => (env.restoreWindow w).isNone)).length ∧
      rep.FailedWindows = (ws.filter (fun w => (env.restoreWindow w).isSome)).map
        (fun w => w.WindowTitle) ∧
      (rep.Success = true ↔ 0 < rep.RestoredWindows) := by
  rw [restore_gate_pass env id opts s ws hs hw hgate,
    restorePhase2_run env opts ws _ hdry]
  refine ⟨rfl, rfl, _, rfl, rfl, rfl, rfl, ?_⟩
  simp

/-- C3 witness: restoring three windows where exactly the second
fails yields restored 2 of 3, the single failure entry "w2", and
overall success. -/
theorem restore_partial_failure_witness :
    (Restore envPartial "snap" optsPlain).err = none ∧
    ∃ rep, (Restore envPartial "snap" optsPlain).report = some rep ∧
      rep.TotalWindows = 3 ∧ rep.RestoredWindows = 2 ∧
      rep.FailedWindows = ["w2"] ∧ rep.Success = true := by
  obtain ⟨herr, _, rep, hrep, htot, hres, hfail, hiff⟩ :=
    restore_partial_failure envPartial "snap" optsPlain snapRestore
      [winR1, winR2, winR3] rfl rfl rfl (Or.inl rfl)
  refine ⟨herr, rep, hrep, ?_, ?_, ?_, ?_⟩
  · rw [htot]
    decide
  · rw [hres]
    decide
  · rw [hfail]
    decide
  · refine hiff.mpr ?_
    rw [hres]
    decide

/-! ## C4: the validation gate is hard -/

/-- C4: with validation on and `skipMissingApps` off, if some stored
window's application is absent from the current window set the restore
fails immediately: no `RestoreWindow` call is issued, an error is
returned, and the report is unsuccessful with zero restored windows
and the non-empty missing-application list. -/
theorem restore_validation_gate (env : RestoreEnv) (id : String)
    (opts : RestoreOptionsV2) (s : Snapshot) (ws curr : List Window)
    (hs : env.snapshotRes = .ok (some s)) (hw : env.windowsRes = .ok ws)
    (hc : env.currentWindowsRes = .ok curr)
    (hv : opts.ValidateBeforeRestore = true)
    (hskip : opts.SkipMissingApps = false)
    (hmiss : ∃ w ∈ ws, w.AppName ∉ curr.map (fun x => x.AppName)) :
    (Restore env id opts).calls = [] ∧
    (Restore env id opts).err = some "cannot restore: missing applications" ∧
    ∃ rep, (Restore env id opts).report = some rep ∧
      rep.Success = false ∧ rep.RestoredWindows = 0 ∧
      rep.MissingApps = validateApps env.currentWindowsRes ws ∧
      rep.MissingApps ≠ [] := by
  have hne : validateApps env.currentWindowsRes ws ≠ [] := by
    rw [hc]
    exact validateApps_ne_nil curr ws hmiss
  rw [restore_gate_fail env id opts s ws hs hw hv hskip hne]
  exact ⟨rfl, rfl, _, rfl, rfl, rfl, rfl, hne⟩

/-- C4 witness: a single stored Editor window against an empty
current window set trips the gate: no calls, failure report, missing
list exactly Editor. -/
theorem restore_validation_gate_witness :
    (Restore envMissingApp "snap" optsValidate).calls = [] ∧
    (Restore envMissingApp "snap" optsValidate).err =
      some "cannot restore: missing applications" ∧
    ∃ rep, (Restore envMissingApp "snap" optsValidate).report = some rep ∧
      rep.Success = false ∧ rep.RestoredWindows = 0 ∧
      rep.MissingApps = ["Editor"] := by
  obtain ⟨hcalls, herr, rep, hrep, hsucc, hres, hmissing, _⟩ :=
    restore_validation_gate envMissingApp "snap" optsValidate snapRestore
      [winR1] [] rfl rfl rfl rfl rfl ⟨winR1, by decide, by decide⟩
  refine ⟨hcalls, herr, rep, hrep, hsucc, hres, ?_⟩
  rw [hmissing]
  decide

/-! ## C5: dry run -/

/-- C5 (amended): a dry-run restore never issues a `RestoreWindow`
call, on any input whatsoever; and whenever the snapshot and windows
load and the validation gate does not trip (validation off, no missing
apps, or `skipMissingApps` on), the returned report has
`dryRun = true`, `success = true` and the no-changes message.  (When
the validation gate trips, the gate's failure report is returned
instead - the gate is checked before the dry-run flag - which is what
refutes the claim as stated.) -/
theorem restore_dryRun (env : RestoreEnv) (id : String)
    (opts : RestoreOptionsV2) (hdry : opts.DryRun = true) :
    (Restore env id opts).calls = [] ∧
    (∀ s ws, env.snapshotRes = .ok (some s) → env.windowsRes = .ok ws →
      (opts.ValidateBeforeRestore = false ∨
        validateApps env.currentWindowsRes ws = [] ∨
        opts.SkipMissingApps = true) →
      ∃ rep, (Restore env id opts).report = some rep ∧
        rep.DryRun = true ∧ rep.Success = true ∧
        rep.Message = "Dry run completed - no changes made") := by
  constructor
  · cases env with
    | mk sr wr cr rwf st et =>
      cases sr with
      | error e => rfl
      | ok s? =>
        cases s? with
        | none => rfl
        | some s =>
          cases wr with
          | error e => rfl
          | ok ws =>
            by_cases hv : opts.ValidateBeforeRestore
            · by_cases hcond : 0 < (validateApps cr ws).length ∧
                  opts.SkipMissingApps = false
              · simp only [Restore, if_pos hv, if_pos hcond]
              · simp only [Restore, if_pos hv, if_neg hcond,
                  restorePhase2_dry _ _ _ _ hdry]
            · simp only [Restore, if_neg hv, restorePhase2_dry _ _ _ _ hdry]
  · intro s ws hs hw hgate
    rw [restore_gate_pass env id opts s ws hs hw hgate,
      restorePhase2_dry _ _ _ _ hdry]
    exact ⟨_, rfl, rfl, rfl, rfl⟩

/-- C5 counterexample: with `dryRun = true` but validation on and a
missing application, `Restore` returns the validation-gate failure
report: `dryRun = false` and `success = false`, refuting the claim
that every dry-run call reports `dryRun = true, success = true`.  (No
reposition call is issued, as the calls trace confirms.) -/
theorem restore_dryRun_cex :
    (Restore envMissingApp "snap" optsValidateDry).calls = [] ∧
    ((Restore envMissingApp "snap" optsValidateDry).report.map
      (fun r => (r.DryRun, r.Success))) = some (false, false) := by
  refine ⟨by decide, by decide⟩

/-- C5 witness: a plain dry run (validation off) issues no calls and
reports a successful dry run with the no-changes message. -/
theorem restore_dryRun_witness :
    (Restore envPartial "snap" optsDry).calls = [] ∧
    ∃ rep, (Restore envPartial "snap" optsDry).report = some rep ∧
      rep.DryRun = true ∧ rep.Success = true ∧
      rep.Message = "Dry run completed - no changes made" := by
  obtain ⟨hcalls, hrest⟩ := restore_dryRun envPartial "snap" optsDry rfl
  exact ⟨hcalls, hrest snapRestore [winR1, winR2, winR3] rfl rfl (Or.inl rfl)⟩

/-! ## C10: enumeration failure during validation passes silently -/

/-- C10: if fetching the current window set fails, `validateApps`
returns the empty list, so with validation requested (and no dry run)
the gate passes silently: no error is returned, the report's missing
list is empty, and every stored window is passed to `RestoreWindow`
just as if all applications were present. -/
theorem restore_validation_fetch_error (env : RestoreEnv) (id : String)
    (opts : RestoreOptionsV2) (e : String) (s : Snapshot) (ws : List Window)
    (hs : env.snapshotRes = .ok (some s)) (hw : env.windowsRes = .ok ws)
    (hc : env.currentWindowsRes = .error e)
    (hv : opts.ValidateBeforeRestore = true) (hdry : opts.DryRun = false) :
    validateApps env.currentWindowsRes ws = [] ∧
    (Restore env id opts).err = none ∧
    (Restore env id opts).calls = ws ∧
    ∃ rep, (Restore env id opts).report = some rep ∧ rep.MissingApps = [] := by
  have hval : validateApps env.currentWindowsRes ws = [] := by
    rw [hc]
    rfl
  rw [restore_gate_pass env id opts s ws hs hw (Or.inr (Or.inl hval)),
    restorePhase2_run env opts ws _ hdry]
  refine ⟨hval, rfl, rfl, _, rfl, ?_⟩
  rw [if_pos hv, hval]

/-- C10 witness: with a failing window enumeration, validation-on
restore proceeds and calls `RestoreWindow` on the stored window. -/
theorem restore_validation_fetch_error_witness :
    validateApps envEnumFails.currentWindowsRes [winR1] = [] ∧
    (Restore envEnumFails "snap" optsValidate).err = none ∧
    (Restore envEnumFails "snap" optsValidate).calls = [winR1] ∧
    ∃ rep, (Restore envEnumFails "snap" optsValidate).report = some rep ∧
      rep.MissingApps = [] :=
  restore_validation_fetch_error envEnumFails "snap" optsValidate
    "enumeration failed" snapRestore [winR1] rfl rfl rfl rfl rfl
